import Mathlib

/-!
Verification of the WiFi site-survey analysis core
(`Scripts/analyze_wifi_data.py`, `Scripts/analyze_pi_survey.py`,
`Scripts/validate_pi_vs_acrylic.py`, `Scripts/create_visualizations.py`).

Signal strengths, coordinates and scores are embedded as `Rat` (the Python
code manipulates exact decimal CSV values and integer counts; every formula
in scope is closed under rational arithmetic).  Pandas dataframes restricted
to one floor are embedded as `List Measurement`; `groupby` becomes explicit
grouping by the `(x, y)` key, and a pandas filter becomes `List.filter`.
Python's true division raising `ZeroDivisionError` is embedded with `Option`.
-/

/-- One row of a floor's measurement table: position, access point hardware
identifier, network name and signal strength in dBm. -/
structure Measurement where
  x : Rat
  y : Rat
  bssid : String
  ssid : String
  signal_strength : Rat
deriving DecidableEq, Repr

/-- `slu_users['signal_strength'] > -50` — the Excellent-band predicate of
`analyze_wifi_data.py` line 50. -/
def isExcellent (s : Rat) : Bool := decide (s > -50)

/-- `(signal <= -50) & (signal > -65)` — the Good-band predicate of
`analyze_wifi_data.py` line 51. -/
def isGood (s : Rat) : Bool := decide (s ≤ -50) && decide (s > -65)

/-- `(signal <= -65) & (signal > -80)` — the Fair-band predicate of
`analyze_wifi_data.py` line 52. -/
def isFair (s : Rat) : Bool := decide (s ≤ -65) && decide (s > -80)

/-- `signal <= -80` — the Poor-band predicate of
`analyze_wifi_data.py` line 53. -/
def isPoor (s : Rat) : Bool := decide (s ≤ -80)

/-- `excellent = len(slu_users[slu_users['signal_strength'] > -50])`. -/
def excellentCount (ms : List Measurement) : Nat :=
  (ms.filter fun m => isExcellent m.signal_strength).length

/-- `good = len(...)` for the Good band. -/
def goodCount (ms : List Measurement) : Nat :=
  (ms.filter fun m => isGood m.signal_strength).length

/-- `fair = len(...)` for the Fair band. -/
def fairCount (ms : List Measurement) : Nat :=
  (ms.filter fun m => isFair m.signal_strength).length

/-- `poor = len(...)` for the Poor band. -/
def poorCount (ms : List Measurement) : Nat :=
  (ms.filter fun m => isPoor m.signal_strength).length

/-- Arithmetic mean of a list of rationals, the embedding of pandas
`Series.mean()`; every use site below applies it to a non-empty list. -/
def listMean (l : List Rat) : Rat := l.sum / l.length

/-- `handover_threshold = -70` (`analyze_wifi_data.py` line 64). -/
def handover_threshold : Rat := -70

/-- The distinct `(x_position, y_position)` keys of
`slu_users.groupby(['x_position', 'y_position'])` (line 62). -/
def locationKeys (ms : List Measurement) : List (Rat × Rat) :=
  (ms.map fun m => (m.x, m.y)).dedup

/-- The group of measurements at one location key. -/
def atLocation (ms : List Measurement) (p : Rat × Rat) : List Measurement :=
  ms.filter fun m => decide (m.x = p.1) && decide (m.y = p.2)

/-- `strong_aps = group[group['signal_strength'] > handover_threshold]`
(line 68). -/
def strongAPs (g : List Measurement) : List Measurement :=
  g.filter fun m => decide (m.signal_strength > handover_threshold)

/-- `num_aps = len(strong_aps['bssid'].unique())` (line 69). -/
def numAPs (g : List Measurement) : Nat :=
  ((strongAPs g).map fun m => m.bssid).dedup.length

/-- One entry appended to `handover_zones` (lines 72-77). -/
structure HandoverZone where
  x : Rat
  y : Rat
  num_aps : Nat
  avg_signal : Rat
deriving DecidableEq, Repr

/-- The `handover_zones` list built by the loop over location groups in
`analyze_floor` (lines 66-77): a location enters iff `num_aps >= 2`, and its
`avg_signal` is `strong_aps['signal_strength'].mean()` (line 76). -/
def handoverZones (ms : List Measurement) : List HandoverZone :=
  (locationKeys ms).filterMap fun p =>
    let g := atLocation ms p
    if numAPs g ≥ 2 then
      some ⟨p.1, p.2, numAPs g,
        listMean ((strongAPs g).map fun m => m.signal_strength)⟩
    else none

/-- The variant loop in `create_visualizations.py` `create_handover_scatter`
(lines 255-263): same membership test, but the reported signal is
`group['signal_strength'].mean()` over the whole group (line 258). -/
def scatterHandoverZones (ms : List Measurement) : List HandoverZone :=
  (locationKeys ms).filterMap fun p =>
    let g := atLocation ms p
    if numAPs g ≥ 2 then
      some ⟨p.1, p.2, numAPs g, listMean (g.map fun m => m.signal_strength)⟩
    else none

/-- `total_locations = locations.ngroups` (line 81). -/
def totalLocations (ms : List Measurement) : Nat := (locationKeys ms).length

/-- `handover_locations = len(handover_df)` (line 82). -/
def handoverLocations (ms : List Measurement) : Nat := (handoverZones ms).length

/-- `handover_coverage = (handover_locations / total_locations * 100) if
total_locations > 0 else 0` (line 83). -/
def handoverCoverage (ms : List Measurement) : Rat :=
  if totalLocations ms > 0 then
    (handoverLocations ms : Rat) / (totalLocations ms : Rat) * 100
  else 0

/-- `coverage_score = (excellent + good) / total * 100 if total > 0 else 0`
(line 95). -/
def coverageScore (ms : List Measurement) : Rat :=
  if ms.length > 0 then
    ((excellentCount ms : Rat) + (goodCount ms : Rat)) / (ms.length : Rat) * 100
  else 0

/-- `handover_score = handover_coverage` (line 97). -/
def handoverScore (ms : List Measurement) : Rat := handoverCoverage ms

/-- `avg_handover_signal = handover_df['avg_signal'].mean() if
len(handover_df) > 0 else -100` (line 99). -/
def avgHandoverSignal (ms : List Measurement) : Rat :=
  if (handoverZones ms).length > 0 then
    listMean ((handoverZones ms).map fun z => z.avg_signal)
  else -100

/-- `signal_quality_score = min(100, max(0, (avg_handover_signal + 100) * 2))`
(line 100). -/
def signalQualityScore (ms : List Measurement) : Rat :=
  min 100 (max 0 ((avgHandoverSignal ms + 100) * 2))

/-- `avg_aps_per_zone = handover_df['num_aps'].mean() if len(handover_df) > 0
else 0` (line 102). -/
def avgApsPerZone (ms : List Measurement) : Rat :=
  if (handoverZones ms).length > 0 then
    listMean ((handoverZones ms).map fun z => (z.num_aps : Rat))
  else 0

/-- `density_score = min(100, (avg_aps_per_zone / 20) * 100)` (line 103). -/
def densityScore (ms : List Measurement) : Rat :=
  min 100 (avgApsPerZone ms / 20 * 100)

/-- `efficiency_score = handover_score * 0.4 + signal_quality_score * 0.3 +
density_score * 0.3` (lines 105-109). -/
def efficiencyScore (ms : List Measurement) : Rat :=
  handoverScore ms * 0.4 + signalQualityScore ms * 0.3 + densityScore ms * 0.3

/-- `min(countA, countB) / max(countA, countB) * 100`
(`validate_pi_vs_acrylic.py` line 70, `analyze_pi_survey.py` line 117).
Python true division of two ints raises `ZeroDivisionError` when the
denominator is zero, embedded as `none`. -/
def bssid_match (a b : Nat) : Option Rat :=
  if max a b = 0 then none
  else some ((min a b : Rat) / (max a b : Rat) * 100)

/-- Case-insensitive substring test embedding
`df['ssid'].str.contains('SLU-users', na=False, case=False)` (line 33). -/
def sluMatch (s : String) : Bool := (s.toLower.splitOn "slu-users").length != 1

/-- The record returned by `analyze_floor` (lines 118-126). -/
structure FloorResult where
  total_measurements : Nat
  locations : Nat
  avg_signal : Rat
  handover_coverage : Rat
  handover_zones : Nat
  efficiency_score : Rat
deriving DecidableEq, Repr

/-- `analyze_floor` restricted to its computation on one floor's measurement
table: filter to the SLU-users network (line 33), return `None` when no rows
survive (lines 35-37), otherwise the summary record (lines 118-126). -/
def analyzeFloor (df : List Measurement) : Option FloorResult :=
  let slu_users := df.filter fun m => sluMatch m.ssid
  if slu_users.length = 0 then none
  else some
    { total_measurements := slu_users.length
      locations := totalLocations slu_users
      avg_signal := listMean (slu_users.map fun m => m.signal_strength)
      handover_coverage := handoverCoverage slu_users
      handover_zones := handoverLocations slu_users
      efficiency_score := efficiencyScore slu_users }

/-- Each signal value satisfies exactly one of the four band predicates. -/
lemma band_toNat_sum (s : Rat) :
    (isExcellent s).toNat + (isGood s).toNat + (isFair s).toNat
      + (isPoor s).toNat = 1 := by
  unfold isExcellent isGood isFair isPoor
  rcases le_or_lt s (-80) with h80 | h80
  · have h65 : s ≤ -65 := by linarith
    have h50 : s ≤ -50 := by linarith
    simp [h80, h65, h50, not_lt.mpr h80, not_lt.mpr h65, not_lt.mpr h50]
  · rcases le_or_lt s (-65) with h65 | h65
    · have h50 : s ≤ -50 := by linarith
      simp [not_le.mpr h80, h80, h65, h50, not_lt.mpr h65, not_lt.mpr h50]
    · rcases le_or_lt s (-50) with h50 | h50
      · simp [not_le.mpr h80, h80, not_le.mpr h65, h65, h50, not_lt.mpr h50]
      · simp [not_le.mpr h80, h80, not_le.mpr h65, h65, not_le.mpr h50, h50]

/-- The four band counts partition the measurement list. -/
lemma band_count_sum (ms : List Measurement) :
    excellentCount ms + goodCount ms + fairCount ms + poorCount ms
      = ms.length := by
  unfold excellentCount goodCount fairCount poorCount
  induction ms with
  | nil => rfl
  | cons m t ih =>
    have h := band_toNat_sum m.signal_strength
    simp only [List.filter_cons]
    cases he : isExcellent m.signal_strength <;>
      cases hg : isGood m.signal_strength <;>
        cases hf : isFair m.signal_strength <;>
          cases hp : isPoor m.signal_strength <;>
            simp [he, hg, hf, hp] at h ⊢ <;> omega

/-- C2: the four-band classification is half-open exactly as tabled: a
signal_strength of exactly -50 is Good (not Excellent), exactly -65 is Fair
(not Good), exactly -80 is Poor (not Fair), and every signal value satisfies
exactly one of the four band predicates. -/
theorem C2_half_open_bands :
    isGood (-50) = true ∧ isExcellent (-50) = false ∧
    isFair (-65) = true ∧ isGood (-65) = false ∧
    isPoor (-80) = true ∧ isFair (-80) = false ∧
    ∀ s : Rat, (isExcellent s).toNat + (isGood s).toNat + (isFair s).toNat
      + (isPoor s).toNat = 1 :=
  ⟨by decide, by decide, by decide, by decide, by decide, by decide,
    band_toNat_sum⟩

/-- C3: the four band counts are non-negative and sum exactly to the number
of input measurements. -/
theorem C3_band_counts_sum (ms : List Measurement) :
    0 ≤ excellentCount ms ∧ 0 ≤ goodCount ms ∧ 0 ≤ fairCount ms ∧
    0 ≤ poorCount ms ∧
    excellentCount ms + goodCount ms + fairCount ms + poorCount ms
      = ms.length :=
  ⟨Nat.zero_le _, Nat.zero_le _, Nat.zero_le _, Nat.zero_le _,
    band_count_sum ms⟩

/-- A lower bound on every element bounds the sum from below. -/
lemma length_mul_le_sum (c : Rat) (l : List Rat) (h : ∀ x ∈ l, c ≤ x) :
    c * l.length ≤ l.sum := by
  induction l with
  | nil => simp
  | cons x t ih =>
    have hx : c ≤ x := h x (List.mem_cons_self x t)
    have ht : c * t.length ≤ t.sum := ih fun y hy => h y (List.mem_cons_of_mem x hy)
    simp only [List.sum_cons, List.length_cons]
    push_cast
    linarith

/-- A uniform lower bound on the elements bounds the mean from below. -/
lemma le_listMean (c : Rat) (l : List Rat) (hne : l ≠ [])
    (h : ∀ x ∈ l, c ≤ x) : c ≤ listMean l := by
  have hlen : (0 : Rat) < l.length := by
    have := List.length_pos.mpr hne
    exact_mod_cast this
  rw [listMean, le_div_iff₀ hlen]
  exact length_mul_le_sum c l h

/-- A strict uniform lower bound on the elements bounds the mean strictly. -/
lemma lt_listMean (c : Rat) (l : List Rat) (hne : l ≠ [])
    (h : ∀ x ∈ l, c < x) : c < listMean l := by
  have hlen : (0 : Rat) < l.length := by
    have := List.length_pos.mpr hne
    exact_mod_cast this
  rw [listMean, lt_div_iff₀ hlen]
  rcases l with _ | ⟨x, t⟩
  · exact absurd rfl hne
  · have hx : c < x := h x (List.mem_cons_self x t)
    have ht : c * t.length ≤ t.sum :=
      length_mul_le_sum c t fun y hy => (h y (List.mem_cons_of_mem x hy)).le
    simp only [List.sum_cons, List.length_cons]
    push_cast
    linarith

/-- The mean of a list of non-negative rationals is non-negative (also for
the empty list, where `listMean` degenerates to `0 / 0 = 0`). -/
lemma listMean_nonneg (l : List Rat) (h : ∀ x ∈ l, 0 ≤ x) :
    0 ≤ listMean l :=
  div_nonneg (List.sum_nonneg h) (by positivity)

/-- Membership in `handoverZones`: exactly the location groups with at least
two distinct strong BSSIDs enter, carrying the mean strong signal. -/
lemma mem_handoverZones {ms : List Measurement} {z : HandoverZone}
    (hz : z ∈ handoverZones ms) :
    ∃ p ∈ locationKeys ms, 2 ≤ numAPs (atLocation ms p) ∧
      z = ⟨p.1, p.2, numAPs (atLocation ms p),
        listMean ((strongAPs (atLocation ms p)).map fun m =>
          m.signal_strength)⟩ := by
  rcases List.mem_filterMap.mp hz with ⟨p, hp, hfp⟩
  by_cases hc : 2 ≤ numAPs (atLocation ms p)
  · refine ⟨p, hp, hc, ?_⟩
    simp only [ge_iff_le, hc, if_pos] at hfp
    exact (Option.some.inj hfp).symm
  · simp only [ge_iff_le, hc, if_neg, not_false_iff] at hfp
    exact Option.noConfusion hfp

/-- A qualifying location group yields its zone record in `handoverZones`. -/
lemma handoverZones_mem_of (ms : List Measurement) (p : Rat × Rat)
    (hp : p ∈ locationKeys ms) (hc : 2 ≤ numAPs (atLocation ms p)) :
    (⟨p.1, p.2, numAPs (atLocation ms p),
      listMean ((strongAPs (atLocation ms p)).map fun m =>
        m.signal_strength)⟩ : HandoverZone) ∈ handoverZones ms := by
  apply List.mem_filterMap.mpr
  refine ⟨p, hp, ?_⟩
  simp only [ge_iff_le, hc, if_pos]

/-- The deduplicated strong-BSSID count is the cardinality of the set of
distinct BSSIDs among the measurements stronger than -70 dBm. -/
lemma numAPs_eq_card (g : List Measurement) :
    numAPs g = ((g.filter fun m =>
      decide (m.signal_strength > -70)).map fun m => m.bssid).toFinset.card := by
  rw [List.card_toFinset]
  rfl

/-- C1: a location is a handover zone iff the set of distinct BSSIDs among
its measurements with signal_strength > -70 dBm has cardinality at least 2;
repeated measurements of one BSSID at -60 dBm count as one qualifying AP. -/
theorem C1_handover_zone_iff :
    (∀ (ms : List Measurement) (p : Rat × Rat),
      (∃ z ∈ handoverZones ms, z.x = p.1 ∧ z.y = p.2) ↔
        p ∈ locationKeys ms ∧ 2 ≤
          (((atLocation ms p).filter fun m =>
            decide (m.signal_strength > -70)).map fun m =>
              m.bssid).toFinset.card) ∧
    (∀ m₁ m₂ : Measurement, m₁.bssid = m₂.bssid → m₁.signal_strength = -60 →
      m₂.signal_strength = -60 → numAPs [m₁, m₂] = 1) := by
  constructor
  · intro ms p
    constructor
    · rintro ⟨z, hz, hx, hy⟩
      rcases mem_handoverZones hz with ⟨q, hq, hc, rfl⟩
      simp only at hx hy
      have hpq : q = p := Prod.ext hx hy
      subst hpq
      exact ⟨hq, by rw [← numAPs_eq_card]; exact hc⟩
    · rintro ⟨hp, hcard⟩
      have hc : 2 ≤ numAPs (atLocation ms p) := by
        rw [numAPs_eq_card]; exact hcard
      exact ⟨_, handoverZones_mem_of ms p hp hc, rfl, rfl⟩
  · intro m₁ m₂ hb h1 h2
    have hs1 : decide (m₁.signal_strength > handover_threshold) = true := by
      rw [h1]; decide
    have hs2 : decide (m₂.signal_strength > handover_threshold) = true := by
      rw [h2]; decide
    simp [numAPs, strongAPs, hs1, hs2, hb, List.dedup_cons_of_mem]

/-- Witness for C1 at a concrete two-measurement floor. -/
theorem C1_handover_zone_iff_witness :
    (∃ z ∈ handoverZones
        [⟨0, 0, "aa", "SLU-users", -60⟩, ⟨0, 0, "ab", "SLU-users", -60⟩],
      z.x = 0 ∧ z.y = 0) ∧
    numAPs [⟨0, 0, "aa", "SLU-users", -60⟩, ⟨0, 0, "aa", "SLU-users", -60⟩]
      = 1 :=
  ⟨(C1_handover_zone_iff.1
      [⟨0, 0, "aa", "SLU-users", -60⟩, ⟨0, 0, "ab", "SLU-users", -60⟩]
      (0, 0)).mpr ⟨by decide, by decide⟩,
    C1_handover_zone_iff.2 ⟨0, 0, "aa", "SLU-users", -60⟩
      ⟨0, 0, "aa", "SLU-users", -60⟩ rfl rfl rfl⟩

/-- Membership in `scatterHandoverZones`: same qualification test, but the
carried signal is the mean over the whole location group. -/
lemma mem_scatterHandoverZones {ms : List Measurement} {z : HandoverZone}
    (hz : z ∈ scatterHandoverZones ms) :
    ∃ p ∈ locationKeys ms, 2 ≤ numAPs (atLocation ms p) ∧
      z = ⟨p.1, p.2, numAPs (atLocation ms p),
        listMean ((atLocation ms p).map fun m => m.signal_strength)⟩ := by
  rcases List.mem_filterMap.mp hz with ⟨p, hp, hfp⟩
  by_cases hc : 2 ≤ numAPs (atLocation ms p)
  · refine ⟨p, hp, hc, ?_⟩
    simp only [ge_iff_le, hc, if_pos] at hfp
    exact (Option.some.inj hfp).symm
  · simp only [ge_iff_le, hc, if_neg, not_false_iff] at hfp
    exact Option.noConfusion hfp

/-- C4 counterexample: at a location holding measurements at -60, -60 and
-90 dBm, `analyze_floor` reports avg_signal = -60 (mean of the strong
measurements only), while the mean over all measurements there is -70. -/
theorem C4_counterexample :
    (handoverZones [⟨0, 0, "aa", "SLU-users", -60⟩,
        ⟨0, 0, "ab", "SLU-users", -60⟩,
        ⟨0, 0, "ac", "SLU-users", -90⟩]).map (fun z => z.avg_signal)
      = [-60] ∧
    listMean ((atLocation [⟨0, 0, "aa", "SLU-users", -60⟩,
        ⟨0, 0, "ab", "SLU-users", -60⟩,
        ⟨0, 0, "ac", "SLU-users", -90⟩] (0, 0)).map fun m =>
          m.signal_strength) = -70 ∧
    ((-60 : Rat) ≠ -70) :=
  ⟨by norm_num +decide [handoverZones, locationKeys, atLocation, strongAPs,
      numAPs, listMean, handover_threshold, List.dedup, List.pwFilter,
      List.filterMap],
    by norm_num [listMean, atLocation],
    by norm_num⟩

/-- C4 amended: the avg_signal carried by `analyze_floor`'s handover zones is
the mean over only the measurements stronger than -70 dBm at that location,
while `create_handover_scatter` reports the mean over all measurements. -/
theorem C4_avg_signal_over_strong_only :
    (∀ (ms : List Measurement) (z : HandoverZone), z ∈ handoverZones ms →
      z.avg_signal = listMean (((atLocation ms (z.x, z.y)).filter fun m =>
        decide (m.signal_strength > -70)).map fun m => m.signal_strength)) ∧
    (∀ (ms : List Measurement) (z : HandoverZone),
      z ∈ scatterHandoverZones ms →
      z.avg_signal = listMean ((atLocation ms (z.x, z.y)).map fun m =>
        m.signal_strength)) := by
  constructor
  · intro ms z hz
    rcases mem_handoverZones hz with ⟨p, _, _, rfl⟩
    rfl
  · intro ms z hz
    rcases mem_scatterHandoverZones hz with ⟨p, _, _, rfl⟩
    rfl

/-- Witness for C4's amended theorem at a concrete two-measurement floor. -/
theorem C4_avg_signal_witness :
    (HandoverZone.mk 0 0 2 (-60)).avg_signal =
      listMean (((atLocation [⟨0, 0, "aa", "SLU-users", -60⟩,
        ⟨0, 0, "ab", "SLU-users", -60⟩]
          ((HandoverZone.mk 0 0 2 (-60)).x,
            (HandoverZone.mk 0 0 2 (-60)).y)).filter fun m =>
              decide (m.signal_strength > -70)).map fun m =>
                m.signal_strength) :=
  C4_avg_signal_over_strong_only.1
    [⟨0, 0, "aa", "SLU-users", -60⟩, ⟨0, 0, "ab", "SLU-users", -60⟩]
    (HandoverZone.mk 0 0 2 (-60))
    (by norm_num +decide [handoverZones, locationKeys, atLocation, strongAPs,
      numAPs, listMean, handover_threshold, List.dedup, List.pwFilter,
      List.filterMap])

/-- C5: the composite efficiency score is the fixed weighted sum
0.4 × handover + 0.3 × signal quality + 0.3 × density, hence monotonically
non-decreasing in handover_coverage with the other two summands fixed. -/
theorem C5_efficiency_weighted_sum_monotone :
    (∀ ms : List Measurement, efficiencyScore ms =
      0.4 * handoverCoverage ms + 0.3 * signalQualityScore ms
        + 0.3 * densityScore ms) ∧
    (∀ ms₁ ms₂ : List Measurement,
      handoverCoverage ms₁ ≤ handoverCoverage ms₂ →
      signalQualityScore ms₁ = signalQualityScore ms₂ →
      densityScore ms₁ = densityScore ms₂ →
      efficiencyScore ms₁ ≤ efficiencyScore ms₂) := by
  constructor
  · intro ms
    unfold efficiencyScore handoverScore
    ring
  · intro ms₁ ms₂ hh hs hd
    unfold efficiencyScore handoverScore
    rw [hs, hd]
    have h4 : (0.4 : Rat) > 0 := by norm_num
    nlinarith [hh]

/-- Witness for C5 at the empty measurement list. -/
theorem C5_efficiency_witness :
    efficiencyScore [] = 0.4 * handoverCoverage []
        + 0.3 * signalQualityScore [] + 0.3 * densityScore [] ∧
    efficiencyScore [] ≤ efficiencyScore [] :=
  ⟨C5_efficiency_weighted_sum_monotone.1 [],
    C5_efficiency_weighted_sum_monotone.2 [] [] le_rfl rfl rfl⟩

/-- A count ratio scaled to a percentage stays within [0, 100]. -/
lemma ratio_percent_bounds (a b : Nat) (hb : 0 < b) (hab : a ≤ b) :
    0 ≤ (a : Rat) / (b : Rat) * 100 ∧ (a : Rat) / (b : Rat) * 100 ≤ 100 := by
  have hb' : (0 : Rat) < b := by exact_mod_cast hb
  constructor
  · positivity
  · have h1 : (a : Rat) / b ≤ 1 := by
      rw [div_le_one hb']
      exact_mod_cast hab
    nlinarith

/-- There are at most as many handover zones as surveyed locations. -/
lemma handoverLocations_le (ms : List Measurement) :
    handoverLocations ms ≤ totalLocations ms :=
  List.length_filterMap_le _ _

/-- C6: all four sub-scores and the composite efficiency score lie in
[0, 100]; a mean handover-zone signal of -100 dBm yields signal quality 0,
and with no handover zones the density score is 0. -/
theorem C6_scores_in_range (ms : List Measurement) :
    (0 ≤ coverageScore ms ∧ coverageScore ms ≤ 100) ∧
    (0 ≤ handoverScore ms ∧ handoverScore ms ≤ 100) ∧
    (0 ≤ signalQualityScore ms ∧ signalQualityScore ms ≤ 100) ∧
    (0 ≤ densityScore ms ∧ densityScore ms ≤ 100) ∧
    (0 ≤ efficiencyScore ms ∧ efficiencyScore ms ≤ 100) ∧
    (avgHandoverSignal ms = -100 → signalQualityScore ms = 0) ∧
    (handoverZones ms = [] → densityScore ms = 0) := by
  have hcov : 0 ≤ coverageScore ms ∧ coverageScore ms ≤ 100 := by
    unfold coverageScore
    by_cases h : ms.length > 0
    · simp only [h, if_pos]
      have hsum := band_count_sum ms
      have hle : excellentCount ms + goodCount ms ≤ ms.length := by omega
      have := ratio_percent_bounds (excellentCount ms + goodCount ms)
        ms.length h hle
      push_cast at this ⊢
      exact this
    · simp only [h, if_neg, not_false_iff]
      norm_num
  have hhand : 0 ≤ handoverScore ms ∧ handoverScore ms ≤ 100 := by
    unfold handoverScore handoverCoverage
    by_cases h : totalLocations ms > 0
    · simp only [h, if_pos]
      exact ratio_percent_bounds (handoverLocations ms) (totalLocations ms)
        h (handoverLocations_le ms)
    · simp only [h, if_neg, not_false_iff]
      norm_num
  have hsq : 0 ≤ signalQualityScore ms ∧ signalQualityScore ms ≤ 100 := by
    unfold signalQualityScore
    exact ⟨le_min (by norm_num) (le_max_left 0 _), min_le_left _ _⟩
  have hdens : 0 ≤ densityScore ms ∧ densityScore ms ≤ 100 := by
    unfold densityScore
    have havg : 0 ≤ avgApsPerZone ms := by
      unfold avgApsPerZone
      by_cases h : (handoverZones ms).length > 0
      · simp only [h, if_pos]
        apply listMean_nonneg
        intro x hx
        rcases List.mem_map.mp hx with ⟨z, _, rfl⟩
        positivity
      · simp only [h, if_neg, not_false_iff]
        exact le_refl 0
    refine ⟨le_min (by norm_num) (by positivity), min_le_left _ _⟩
  have heff : 0 ≤ efficiencyScore ms ∧ efficiencyScore ms ≤ 100 := by
    unfold efficiencyScore handoverScore
    unfold handoverScore at hhand
    constructor <;> nlinarith [hhand.1, hhand.2, hsq.1, hsq.2,
      hdens.1, hdens.2]
  refine ⟨hcov, hhand, hsq, hdens, heff, ?_, ?_⟩
  · intro h
    unfold signalQualityScore
    rw [h]
    norm_num
  · intro h
    unfold densityScore avgApsPerZone
    rw [h]
    norm_num

/-- Witness for C6 at the empty measurement list. -/
theorem C6_scores_witness :
    (0 ≤ coverageScore [] ∧ coverageScore [] ≤ 100) ∧
    signalQualityScore [] = 0 ∧ densityScore [] = 0 :=
  ⟨(C6_scores_in_range []).1,
    (C6_scores_in_range []).2.2.2.2.2.1 rfl,
    (C6_scores_in_range []).2.2.2.2.2.2 rfl⟩

/-- C7: for positive counts, the BSSID match percentage is symmetric and a
defined value in the half-open interval (0, 100]. -/
theorem C7_bssid_match_symm_range (a b : Nat) (ha : 0 < a) (hb : 0 < b) :
    bssid_match a b = bssid_match b a ∧
    ∃ r : Rat, bssid_match a b = some r ∧ 0 < r ∧ r ≤ 100 := by
  have hmax : max a b ≠ 0 := by omega
  have haQ : (0 : Rat) < (a : Rat) := by exact_mod_cast ha
  have hbQ : (0 : Rat) < (b : Rat) := by exact_mod_cast hb
  have hmaxQ : (0 : Rat) < max (a : Rat) (b : Rat) :=
    lt_of_lt_of_le haQ (le_max_left _ _)
  constructor
  · unfold bssid_match
    rw [Nat.max_comm a b, min_comm (a : Rat) (b : Rat),
      max_comm (a : Rat) (b : Rat)]
  · refine ⟨min (a : Rat) (b : Rat) / max (a : Rat) (b : Rat) * 100,
      ?_, ?_, ?_⟩
    · unfold bssid_match
      simp only [hmax, if_neg, not_false_iff]
    · have hmin : (0 : Rat) < min (a : Rat) (b : Rat) := lt_min haQ hbQ
      positivity
    · have h1 : min (a : Rat) (b : Rat) / max (a : Rat) (b : Rat) ≤ 1 := by
        rw [div_le_one hmaxQ]
        exact le_trans (min_le_left _ _) (le_max_left _ _)
      nlinarith

/-- Witness for C7 at counts 2 and 3. -/
theorem C7_bssid_match_witness :
    bssid_match 2 3 = bssid_match 3 2 ∧
    ∃ r : Rat, bssid_match 2 3 = some r ∧ 0 < r ∧ r ≤ 100 :=
  C7_bssid_match_symm_range 2 3 (by norm_num) (by norm_num)

/-- C8 counterexample: with both counts zero the source computes
`min(0,0)/max(0,0)*100`, a division by zero — the embedding yields `none`
(the Python code raises `ZeroDivisionError`), not a well-defined result. -/
theorem C8_counterexample :
    bssid_match 0 0 = none ∧ (bssid_match 0 0).isSome = false :=
  ⟨rfl, rfl⟩

/-- C8 amended: the source has no special case — the match computation is
undefined (raises) exactly when both counts are zero, and defined
otherwise. -/
theorem C8_divzero_unhandled :
    ∀ a b : Nat, bssid_match a b = none ↔ (a = 0 ∧ b = 0) := by
  intro a b
  unfold bssid_match
  constructor
  · intro h
    by_cases hm : max a b = 0
    · omega
    · simp only [hm, if_neg, not_false_iff] at h
      exact Option.noConfusion h
  · intro ⟨ha, hb⟩
    subst ha
    subst hb
    rfl

/-- C9 counterexample: on a floor with zero measurements `analyze_floor`
takes the early `return None` (no SLU-users rows), so it yields no summary
record at all — in particular not one with zero band counts and scores. -/
theorem C9_counterexample :
    analyzeFloor [] = none ∧ (analyzeFloor []).isSome = false :=
  ⟨rfl, rfl⟩

/-- C9 amended: on a floor with zero measurements the analysis raises no
exception: it returns the no-data sentinel `None` instead of a zero-filled
record; the underlying aggregates all degenerate to zero (zero band counts,
handover_coverage 0 by its total_locations guard, efficiency_score 0). -/
theorem C9_empty_floor_no_data :
    analyzeFloor [] = none ∧
    excellentCount [] = 0 ∧ goodCount [] = 0 ∧ fairCount [] = 0 ∧
    poorCount [] = 0 ∧ handoverCoverage [] = 0 ∧ efficiencyScore [] = 0 := by
  refine ⟨rfl, rfl, rfl, rfl, rfl, rfl, ?_⟩
  norm_num [efficiencyScore, handoverScore, handoverCoverage,
    signalQualityScore, densityScore, avgHandoverSignal, avgApsPerZone,
    totalLocations, locationKeys, handoverZones, handoverLocations,
    listMean, List.dedup, List.pwFilter, List.filterMap]

/-- C10: every handover-zone record carries at least two qualifying APs and
an average signal strictly above -70 dBm; when at least one handover zone
exists the density score is at least 10. -/
theorem C10_zone_invariants :
    (∀ (ms : List Measurement) (z : HandoverZone), z ∈ handoverZones ms →
      2 ≤ z.num_aps ∧ -70 < z.avg_signal) ∧
    (∀ ms : List Measurement, handoverZones ms ≠ [] →
      10 ≤ densityScore ms) := by
  constructor
  · intro ms z hz
    rcases mem_handoverZones hz with ⟨p, _, hc, rfl⟩
    refine ⟨hc, ?_⟩
    have hlen : 2 ≤ (strongAPs (atLocation ms p)).length := by
      calc 2 ≤ numAPs (atLocation ms p) := hc
        _ ≤ ((strongAPs (atLocation ms p)).map fun m => m.bssid).length :=
          (List.dedup_sublist _).length_le
        _ = (strongAPs (atLocation ms p)).length := List.length_map _ _
    apply lt_listMean
    · intro h
      have := congrArg List.length h
      simp only [List.length_map, List.length_nil] at this
      omega
    · intro x hx
      rcases List.mem_map.mp hx with ⟨m, hm, rfl⟩
      have hpred := (List.mem_filter.mp hm).2
      have : m.signal_strength > handover_threshold := of_decide_eq_true hpred
      unfold handover_threshold at this
      linarith
  · intro ms hne
    have h1 : 2 ≤ avgApsPerZone ms := by
      unfold avgApsPerZone
      have hlen : (handoverZones ms).length > 0 := List.length_pos.mpr hne
      simp only [hlen, if_pos]
      apply le_listMean
      · intro h
        have := congrArg List.length h
        simp only [List.length_map, List.length_nil] at this
        omega
      · intro x hx
        rcases List.mem_map.mp hx with ⟨z, hzmem, rfl⟩
        rcases mem_handoverZones hzmem with ⟨p, _, hc, rfl⟩
        exact_mod_cast hc
    unfold densityScore
    refine le_min (by norm_num) ?_
    have heq : avgApsPerZone ms / 20 * 100 = avgApsPerZone ms * 5 := by
      ring
    rw [heq]
    linarith

/-- Witness for C10 at a concrete floor with one handover zone. -/
theorem C10_zone_witness :
    (2 ≤ (HandoverZone.mk 0 0 2 (-60)).num_aps ∧
      -70 < (HandoverZone.mk 0 0 2 (-60)).avg_signal) ∧
    10 ≤ densityScore [⟨0, 0, "aa", "SLU-users", -60⟩,
      ⟨0, 0, "ab", "SLU-users", -60⟩] :=
  ⟨C10_zone_invariants.1
      [⟨0, 0, "aa", "SLU-users", -60⟩, ⟨0, 0, "ab", "SLU-users", -60⟩]
      (HandoverZone.mk 0 0 2 (-60))
      (by norm_num +decide [handoverZones, locationKeys, atLocation,
        strongAPs, numAPs, listMean, handover_threshold, List.dedup,
        List.pwFilter, List.filterMap]),
    C10_zone_invariants.2
      [⟨0, 0, "aa", "SLU-users", -60⟩, ⟨0, 0, "ab", "SLU-users", -60⟩]
      (by norm_num +decide [handoverZones, locationKeys, atLocation,
        strongAPs, numAPs, listMean, handover_threshold, List.dedup,
        List.pwFilter, List.filterMap])⟩
